import Mathlib

/-!
Verification of the expression-parsing subsystem of `compilador.py`
(parser-path lexer `TOKEN_RE`/`Lexer.__init__` and the recursive-descent
parser `parse_expression` with its inner rules `E`, `T`, `F`).

The lexer is embedded as a structural scanner over `List Char` that
mirrors the regex `\s*(?:(\d+(?:\.\d+)?)|([A-Za-z_][A-Za-z0-9_]*)|(.))`
scanned left to right by `finditer`, keeping a single catch-all character
only when it is one of `+ - * / ( )`.  Character classes are the ASCII
classes of the patterns: `TOKEN_RE` is compiled without `re.ASCII`, so
the source regexes `\d` and `\s` also match non-ASCII Unicode decimal
digits and whitespace, which this embedding does not.  Statements that
quantify over all inputs and whose truth would differ outside the
ASCII fragment are therefore restricted to ASCII characters.

The parser is embedded with an explicit fuel argument (structural
recursion on the fuel); `parse_expression` supplies fuel
`3 * tokens.length + 3`, which dominates the call depth of the Python
recursion.  Failure (`raise SyntaxError`) is modelled with
`Except String`; the Portuguese messages follow the source, with the
quotation marks around the parenthesis elided.
-/

deriving instance DecidableEq for Except

namespace Compilador

/-- A token, as the pair `(kind, text)` built by `Lexer.__init__`:
`("NUMBER", v)`, `("ID", v)`, or `(c, c)` for `c` in `"+-*/()"`.
`peek` past the end yields `("EOF", "")`. -/
abbrev Token := String × String

/-- ASCII whitespace matched by the regex class `\s`. -/
def isSpaceChar (c : Char) : Bool :=
  c == ' ' || c == '\t' || c == '\n' || c == '\r' ||
  c == Char.ofNat 11 || c == Char.ofNat 12

/-- First character of the identifier pattern `[A-Za-z_]`. -/
def isIdentStart (c : Char) : Bool :=
  c.isAlpha || c == '_'

/-- Continuation character of the identifier pattern `[A-Za-z0-9_]`. -/
def isIdentChar (c : Char) : Bool :=
  c.isAlpha || c.isDigit || c == '_'

/-- The six single characters kept by `Lexer.__init__`: `other in "+-*/()"`. -/
def isOpChar (c : Char) : Bool :=
  c == '+' || c == '-' || c == '*' || c == '/' || c == '(' || c == ')'

/-- The one-character token `(c, c)` for an operator or parenthesis. -/
def opTok (c : Char) : Token :=
  (String.mk [c], String.mk [c])

/-- `("NUMBER", text)` from the reversed accumulator of matched digits. -/
def numTok (acc : List Char) : Token :=
  ("NUMBER", String.mk acc.reverse)

/-- `("ID", text)` from the reversed accumulator of matched characters. -/
def idTok (acc : List Char) : Token :=
  ("ID", String.mk acc.reverse)

/-- The scanner state of the left-to-right scan of `Lexer.__init__`:
outside any token (`top`), inside the integer digits of
`\\d+(?:\\.\\d+)?` (`num`), just after a dot following integer digits
(`dot`), inside the fractional digits (`frac`), or inside
`[A-Za-z_][A-Za-z0-9_]*` (`ident`).  Each accumulator holds the
characters matched so far, in reverse. -/
inductive ScanState where
  | top : ScanState
  | num : List Char → ScanState
  | dot : List Char → ScanState
  | frac : List Char → ScanState
  | ident : List Char → ScanState

/-- The scan loop of `Lexer.__init__` over the regex
`\\s*(?:(\\d+(?:\\.\\d+)?)|([A-Za-z_][A-Za-z0-9_]*)|(.))`, applied left
to right by `finditer`: whitespace is skipped, a digit run (with an
optional fraction: a dot must be followed by at least one digit, else
the number ends at the integer part and the lone dot is matched by the
catch-all `(.)` and dropped) yields `("NUMBER", text)`, an identifier
run yields `("ID", text)`, one of `+ - * / ( )` yields the
one-character token, and any other catch-all character is silently
dropped.  When a token ends at a non-matching character, scanning
restarts at that character from `top` (inlined in each arm: that
character is known not to extend the current token). -/
def scanM : ScanState → List Char → List Token
  | .top, [] => []
  | .num acc, [] => [numTok acc]
  | .dot acc, [] => [numTok acc]
  | .frac acc, [] => [numTok acc]
  | .ident acc, [] => [idTok acc]
  | .top, c :: cs =>
    if isSpaceChar c then scanM .top cs
    else if c.isDigit then scanM (.num [c]) cs
    else if isIdentStart c then scanM (.ident [c]) cs
    else if isOpChar c then opTok c :: scanM .top cs
    else scanM .top cs
  | .num acc, c :: cs =>
    if c.isDigit then scanM (.num (c :: acc)) cs
    else if c == '.' then scanM (.dot acc) cs
    else if isSpaceChar c then numTok acc :: scanM .top cs
    else if isIdentStart c then numTok acc :: scanM (.ident [c]) cs
    else if isOpChar c then numTok acc :: opTok c :: scanM .top cs
    else numTok acc :: scanM .top cs
  | .dot acc, c :: cs =>
    if c.isDigit then scanM (.frac (c :: '.' :: acc)) cs
    else if isSpaceChar c then numTok acc :: scanM .top cs
    else if isIdentStart c then numTok acc :: scanM (.ident [c]) cs
    else if isOpChar c then numTok acc :: opTok c :: scanM .top cs
    else numTok acc :: scanM .top cs
  | .frac acc, c :: cs =>
    if c.isDigit then scanM (.frac (c :: acc)) cs
    else if isSpaceChar c then numTok acc :: scanM .top cs
    else if isIdentStart c then numTok acc :: scanM (.ident [c]) cs
    else if isOpChar c then numTok acc :: opTok c :: scanM .top cs
    else numTok acc :: scanM .top cs
  | .ident acc, c :: cs =>
    if isIdentChar c then scanM (.ident (c :: acc)) cs
    else if isSpaceChar c then idTok acc :: scanM .top cs
    else if isOpChar c then idTok acc :: opTok c :: scanM .top cs
    else idTok acc :: scanM .top cs

/-- The full scan of a character list, starting outside any token. -/
def scan (cs : List Char) : List Token :=
  scanM .top cs

/-- `Lexer.__init__`: the token list built for an input string. -/
def tokenize (text : String) : List Token :=
  scan text.data

/-- `Lexer.peek`: the token at the cursor, or `("EOF", "")` past the end.
The cursor-and-list pair of the source is represented by the list of
tokens not yet consumed; `Lexer.next` is `List.tail`. -/
def peek : List Token → Token
  | [] => ("EOF", "")
  | t :: _ => t

/-- The AST built by the parser: `("NUMBER", v)` / `("ID", v)` leaves and
`("BINOP", op, left, right)` interior nodes. -/
inductive Ast where
  | leaf : String → String → Ast
  | binop : String → Ast → Ast → Ast
deriving DecidableEq, Repr

mutual

/-- Rule `E`: `node = T()`, then the `+`/`-` fold loop. -/
def parseE : Nat → List Token → Except String (Ast × List Token)
  | 0, _ => .error "fuel"
  | fuel + 1, toks =>
    match parseT fuel toks with
    | .error e => .error e
    | .ok (node, r) => parseEloop fuel node r

/-- The `while lex.peek()[0] in ("+", "-")` loop of rule `E`:
`op = lex.next()[0]; node = ("BINOP", op, node, T())`. -/
def parseEloop : Nat → Ast → List Token → Except String (Ast × List Token)
  | 0, _, _ => .error "fuel"
  | fuel + 1, node, toks =>
    if (peek toks).1 = "+" ∨ (peek toks).1 = "-" then
      match parseT fuel toks.tail with
      | .error e => .error e
      | .ok (rhs, r) => parseEloop fuel (.binop (peek toks).1 node rhs) r
    else .ok (node, toks)

/-- Rule `T`: `node = F()`, then the `*`/`/` fold loop. -/
def parseT : Nat → List Token → Except String (Ast × List Token)
  | 0, _ => .error "fuel"
  | fuel + 1, toks =>
    match parseF fuel toks with
    | .error e => .error e
    | .ok (node, r) => parseTloop fuel node r

/-- The `while lex.peek()[0] in ("*", "/")` loop of rule `T`. -/
def parseTloop : Nat → Ast → List Token → Except String (Ast × List Token)
  | 0, _, _ => .error "fuel"
  | fuel + 1, node, toks =>
    if (peek toks).1 = "*" ∨ (peek toks).1 = "/" then
      match parseF fuel toks.tail with
      | .error e => .error e
      | .ok (rhs, r) => parseTloop fuel (.binop (peek toks).1 node rhs) r
    else .ok (node, toks)

/-- Rule `F`: parenthesised expression, number leaf, identifier leaf, or
`SyntaxError` on any other lookahead. -/
def parseF : Nat → List Token → Except String (Ast × List Token)
  | 0, _ => .error "fuel"
  | fuel + 1, toks =>
    if (peek toks).1 = "(" then
      match parseE fuel toks.tail with
      | .error e => .error e
      | .ok (node, r) =>
        if (peek r).1 ≠ ")" then .error "Faltando )"
        else .ok (node, r.tail)
    else if (peek toks).1 = "NUMBER" then .ok (.leaf "NUMBER" (peek toks).2, toks.tail)
    else if (peek toks).1 = "ID" then .ok (.leaf "ID" (peek toks).2, toks.tail)
    else .error ("Token inesperado: (" ++ (peek toks).1 ++ ", " ++ (peek toks).2 ++ ")")

end

/-- Fuel that dominates the call depth of the source recursion: each
consumed token accounts for at most three nested calls. -/
def parseFuel (toks : List Token) : Nat :=
  3 * toks.length + 3

/-- `parse_expression`: tokenize, run `E`, and require the lookahead to
be `EOF`, failing with `SyntaxError("Entrada extra.")` otherwise. -/
def parse_expression (text : String) : Except String Ast :=
  match parseE (parseFuel (tokenize text)) (tokenize text) with
  | .error e => .error e
  | .ok (tree, rest) =>
    if (peek rest).1 ≠ "EOF" then .error "Entrada extra."
    else .ok tree

/-- The token kinds that `Lexer.__init__` can emit. -/
abbrev KindOk (t : Token) : Prop :=
  t.1 = "NUMBER" ∨ t.1 = "ID" ∨ t.1 = "+" ∨ t.1 = "-" ∨
  t.1 = "*" ∨ t.1 = "/" ∨ t.1 = "(" ∨ t.1 = ")"

/-- Boolean form of the possible token kinds. -/
def kindOkB (t : Token) : Bool :=
  t.1 == "NUMBER" || t.1 == "ID" || t.1 == "+" || t.1 == "-" ||
  t.1 == "*" || t.1 == "/" || t.1 == "(" || t.1 == ")"

/-- Erasure of every character that is not a digit, letter, underscore,
whitespace, or one of `+ - * / ( )` (the transformation named by the
claim that the lexer behaves as if such characters were erased). -/
def eraseUnrecognized (text : String) : String :=
  String.mk (text.data.filter fun c => isIdentChar c || isSpaceChar c || isOpChar c)

/-- An ASCII character that can appear in no token of the parser-path
lexer: not a letter, digit or underscore, not whitespace, not one of
`+ - * / ( )`, and not a dot (a dot can occur inside a `NUMBER`
token).  Outside ASCII this classification follows the embedded ASCII
character classes, not the source: the regex `\\d` of `TOKEN_RE` is
compiled without `re.ASCII`, so the source lexer also matches
non-ASCII Unicode decimal digits, which this predicate would call
junk.  Statements built on it therefore quantify over ASCII inputs
only. -/
def isJunkChar (c : Char) : Bool :=
  !(isIdentChar c || isSpaceChar c || isOpChar c || c == '.')

/-- Replace each such character by a space. -/
def blankJunk (c : Char) : Char :=
  if isJunkChar c then ' ' else c

/-! ## Theorems -/

/-- C1: operator precedence by grammar layering: parsing `"a + b * c"`
yields `("BINOP", "+", Leaf(ID "a"), ("BINOP", "*", Leaf(ID "b"),
Leaf(ID "c")))`, i.e. `a + (b * c)` with multiplication binding
tighter. -/
theorem claim_C1 :
    parse_expression "a + b * c" =
      .ok (.binop "+" (.leaf "ID" "a")
        (.binop "*" (.leaf "ID" "b") (.leaf "ID" "c"))) := by
  rfl

/-- C2: same-precedence operators fold left-associatively: parsing
`"a - b - c"` yields `((a - b) - c)`; in general, one iteration of the
`E` loop (and of the `T` loop) turns the previously built node into the
left operand of the new `BINOP` node. -/
theorem claim_C2 :
    parse_expression "a - b - c" =
      .ok (.binop "-" (.binop "-" (.leaf "ID" "a") (.leaf "ID" "b"))
        (.leaf "ID" "c")) ∧
    (∀ (fuel : Nat) (node : Ast) (toks : List Token) (rhs : Ast) (r : List Token),
      ((peek toks).1 = "+" ∨ (peek toks).1 = "-") →
      parseT fuel toks.tail = .ok (rhs, r) →
      parseEloop (fuel + 1) node toks =
        parseEloop fuel (.binop (peek toks).1 node rhs) r) ∧
    (∀ (fuel : Nat) (node : Ast) (toks : List Token) (rhs : Ast) (r : List Token),
      ((peek toks).1 = "*" ∨ (peek toks).1 = "/") →
      parseF fuel toks.tail = .ok (rhs, r) →
      parseTloop (fuel + 1) node toks =
        parseTloop fuel (.binop (peek toks).1 node rhs) r) := by
  refine ⟨rfl, ?_, ?_⟩
  · intro fuel node toks rhs r h1 h2
    simp [parseEloop, h1, h2]
  · intro fuel node toks rhs r h1 h2
    simp [parseTloop, h1, h2]

/-- Witness for C2: one concrete iteration of each fold loop. -/
theorem claim_C2_witness :
    parseEloop 6 (Ast.leaf "ID" "a") [("+", "+"), ("ID", "b")] =
      parseEloop 5 (Ast.binop "+" (Ast.leaf "ID" "a") (Ast.leaf "ID" "b")) [] ∧
    parseTloop 6 (Ast.leaf "ID" "a") [("*", "*"), ("ID", "b")] =
      parseTloop 5 (Ast.binop "*" (Ast.leaf "ID" "a") (Ast.leaf "ID" "b")) [] :=
  ⟨claim_C2.2.1 5 (Ast.leaf "ID" "a") [("+", "+"), ("ID", "b")]
      (Ast.leaf "ID" "b") [] (Or.inl rfl) rfl,
    claim_C2.2.2 5 (Ast.leaf "ID" "a") [("*", "*"), ("ID", "b")]
      (Ast.leaf "ID" "b") [] (Or.inl rfl) rfl⟩

/-- C3: whenever `F` has consumed an opening parenthesis and the
enclosed expression has been parsed but the lookahead is not `)`,
the parse fails with the missing-closing-parenthesis `SyntaxError`;
in particular `parse_expression "(a + b"` so fails. -/
theorem claim_C3 :
    (∀ (fuel : Nat) (toks : List Token) (node : Ast) (r : List Token),
      (peek toks).1 = "(" →
      parseE fuel toks.tail = .ok (node, r) →
      (peek r).1 ≠ ")" →
      parseF (fuel + 1) toks = .error "Faltando )") ∧
    parse_expression "(a + b" = .error "Faltando )" := by
  refine ⟨?_, rfl⟩
  intro fuel toks node r h1 h2 h3
  simp [parseF, h1, h2, h3]

/-- Witness for C3: `( a` with the input exhausted after the
subexpression. -/
theorem claim_C3_witness :
    parseF (4 + 1) [("(", "("), ("ID", "a")] = .error "Faltando )" :=
  claim_C3.1 4 [("(", "("), ("ID", "a")] (Ast.leaf "ID" "a") []
    rfl rfl (by decide)

/-- C4: whenever the lookahead at a factor position is none of `(`,
`NUMBER`, `ID` (including the `EOF` token), `F` fails with the
unexpected-token `SyntaxError` naming that token, and no tree is
produced; in particular the empty input fails this way. -/
theorem claim_C4 :
    (∀ (fuel : Nat) (toks : List Token),
      (peek toks).1 ≠ "(" → (peek toks).1 ≠ "NUMBER" → (peek toks).1 ≠ "ID" →
      parseF (fuel + 1) toks =
        .error ("Token inesperado: (" ++ (peek toks).1 ++ ", " ++ (peek toks).2 ++ ")")) ∧
    parse_expression "" = .error "Token inesperado: (EOF, )" := by
  refine ⟨?_, rfl⟩
  intro fuel toks h1 h2 h3
  simp [parseF, h1, h2, h3]

/-- Witness for C4: the factor position at the end of the input sees
the `EOF` token. -/
theorem claim_C4_witness :
    parseF (0 + 1) [] = .error "Token inesperado: (EOF, )" :=
  claim_C4.1 0 [] (by decide) (by decide) (by decide)

@[simp] lemma kindOkB_numTok (acc : List Char) : kindOkB (numTok acc) = true := rfl

@[simp] lemma kindOkB_idTok (acc : List Char) : kindOkB (idTok acc) = true := rfl

@[simp] lemma kindOkB_opTok (c : Char) (h : isOpChar c = true) :
    kindOkB (opTok c) = true := by
  simp only [isOpChar, Bool.or_eq_true, beq_iff_eq] at h
  rcases h with ⟨⟨⟨⟨rfl | rfl⟩ | rfl⟩ | rfl⟩ | rfl⟩ | rfl <;> rfl

/-- Every token emitted from any scanner state has one of the eight
kinds `NUMBER`, `ID`, `+`, `-`, `*`, `/`, `(`, `)`. -/
lemma scanM_kinds (st : ScanState) (cs : List Char) :
    (scanM st cs).all kindOkB = true := by
  induction st, cs using scanM.induct <;> simp [scanM, *]

lemma kindOk_iff (t : Token) : KindOk t ↔ kindOkB t = true := by
  simp [KindOk, kindOkB, Bool.or_eq_true, beq_iff_eq, or_assoc]

lemma kindOk_of_mem_scan {t : Token} {cs : List Char} (h : t ∈ scan cs) : KindOk t := by
  rw [kindOk_iff]
  exact List.all_eq_true.mp (scanM_kinds .top cs) t h

/-- C6: parentheses override precedence: parsing `"(a + b) * c"`
yields `("BINOP", "*", ("BINOP", "+", Leaf(ID "a"), Leaf(ID "b")),
Leaf(ID "c"))`. -/
theorem claim_C6 :
    parse_expression "(a + b) * c" =
      .ok (.binop "*" (.binop "+" (.leaf "ID" "a") (.leaf "ID" "b"))
        (.leaf "ID" "c")) := by
  rfl

/-- C10: `parse_expression` is a pure function of the input text: two
parses of the same string yield structurally identical trees. -/
theorem claim_C10 :
    ∀ (s : String) (t1 t2 : Ast),
      parse_expression s = .ok t1 → parse_expression s = .ok t2 → t1 = t2 := by
  intro s t1 t2 h1 h2
  rw [h1] at h2
  injection h2

/-- Witness for C10: both parses of `"x"` yield `Leaf(ID "x")`. -/
theorem claim_C10_witness :
    parse_expression "x" = .ok (.leaf "ID" "x") ∧
    Ast.leaf "ID" "x" = Ast.leaf "ID" "x" :=
  ⟨rfl, claim_C10 "x" (.leaf "ID" "x") (.leaf "ID" "x") rfl rfl⟩

/-- C8: the parser-path lexer is total (it is a function defined on all
of `String`), and every token it emits has kind `NUMBER`, `ID`, or one
of the six one-character kinds `+ - * / ( )`. -/
theorem claim_C8 :
    ∀ (text : String) (t : Token), t ∈ tokenize text →
      t.1 = "NUMBER" ∨ t.1 = "ID" ∨ t.1 = "+" ∨ t.1 = "-" ∨
      t.1 = "*" ∨ t.1 = "/" ∨ t.1 = "(" ∨ t.1 = ")" := by
  intro text t ht
  exact kindOk_of_mem_scan ht

/-- Witness for C8: the token `("ID", "a")` of `tokenize "a+1"`. -/
theorem claim_C8_witness :
    (("ID", "a") : Token) ∈ tokenize "a+1" ∧
    ((("ID", "a") : Token).1 = "NUMBER" ∨ (("ID", "a") : Token).1 = "ID" ∨
      (("ID", "a") : Token).1 = "+" ∨ (("ID", "a") : Token).1 = "-" ∨
      (("ID", "a") : Token).1 = "*" ∨ (("ID", "a") : Token).1 = "/" ∨
      (("ID", "a") : Token).1 = "(" ∨ (("ID", "a") : Token).1 = ")") :=
  ⟨by decide, claim_C8 "a+1" ("ID", "a") (by decide)⟩

/-- On success, each parsing rule returns a suffix of the token list it
was given (the cursor only moves forward). -/
lemma parse_suffix :
    ∀ fuel : Nat,
      (∀ toks n r, parseE fuel toks = .ok (n, r) → r <:+ toks) ∧
      (∀ node toks n r, parseEloop fuel node toks = .ok (n, r) → r <:+ toks) ∧
      (∀ toks n r, parseT fuel toks = .ok (n, r) → r <:+ toks) ∧
      (∀ node toks n r, parseTloop fuel node toks = .ok (n, r) → r <:+ toks) ∧
      (∀ toks n r, parseF fuel toks = .ok (n, r) → r <:+ toks) := by
  intro fuel
  induction fuel with
  | zero =>
    refine ⟨?_, ?_, ?_, ?_, ?_⟩ <;> intros <;>
      simp_all [parseE, parseEloop, parseT, parseTloop, parseF]
  | succ fuel ih =>
    obtain ⟨ihE, ihEl, ihT, ihTl, ihF⟩ := ih
    refine ⟨?_, ?_, ?_, ?_, ?_⟩
    · intro toks n r h
      simp only [parseE] at h
      split at h
      · exact absurd h (by simp)
      · rename_i node r1 heq
        exact (ihEl node r1 n r h).trans (ihT toks node r1 heq)
    · intro node toks n r h
      simp only [parseEloop] at h
      split at h
      · split at h
        · exact absurd h (by simp)
        · rename_i rhs r2 heq
          exact ((ihEl _ r2 n r h).trans (ihT toks.tail rhs r2 heq)).trans
            (List.tail_suffix toks)
      · simp only [Except.ok.injEq, Prod.mk.injEq] at h
        obtain ⟨h1, h2⟩ := h
        subst h2
        exact List.suffix_refl _
    · intro toks n r h
      simp only [parseT] at h
      split at h
      · exact absurd h (by simp)
      · rename_i node r1 heq
        exact (ihTl node r1 n r h).trans (ihF toks node r1 heq)
    · intro node toks n r h
      simp only [parseTloop] at h
      split at h
      · split at h
        · exact absurd h (by simp)
        · rename_i rhs r2 heq
          exact ((ihTl _ r2 n r h).trans (ihF toks.tail rhs r2 heq)).trans
            (List.tail_suffix toks)
      · simp only [Except.ok.injEq, Prod.mk.injEq] at h
        obtain ⟨h1, h2⟩ := h
        subst h2
        exact List.suffix_refl _
    · intro toks n r h
      simp only [parseF] at h
      split at h
      · split at h
        · exact absurd h (by simp)
        · rename_i node r1 heq
          split at h
          · exact absurd h (by simp)
          · simp only [Except.ok.injEq, Prod.mk.injEq] at h
            obtain ⟨h1, h2⟩ := h
            subst h2
            exact ((List.tail_suffix r1).trans (ihE toks.tail node r1 heq)).trans
              (List.tail_suffix toks)
      · split at h
        · simp only [Except.ok.injEq, Prod.mk.injEq] at h
          obtain ⟨h1, h2⟩ := h
          subst h2
          exact List.tail_suffix toks
        · split at h
          · simp only [Except.ok.injEq, Prod.mk.injEq] at h
            obtain ⟨h1, h2⟩ := h
            subst h2
            exact List.tail_suffix toks
          · exact absurd h (by simp)

/-- C5: after `E` returns at top level, any unconsumed token makes
`parse_expression` fail with the trailing-input `SyntaxError`
(the lookahead of a nonempty remainder is a real token, never `EOF`);
in particular `"a b"` fails with trailing input and `"a +"` fails with
an unexpected-token error. -/
theorem claim_C5 :
    (∀ (text : String) (tree : Ast) (rest : List Token),
      parseE (parseFuel (tokenize text)) (tokenize text) = .ok (tree, rest) →
      rest ≠ [] → parse_expression text = .error "Entrada extra.") ∧
    parse_expression "a b" = .error "Entrada extra." ∧
    parse_expression "a +" = .error "Token inesperado: (EOF, )" := by
  refine ⟨?_, rfl, rfl⟩
  intro text tree rest hE hne
  obtain ⟨t, r', rfl⟩ : ∃ t r', rest = t :: r' := by
    cases rest with
    | nil => exact absurd rfl hne
    | cons a b => exact ⟨a, b, rfl⟩
  have hsuf : (t :: r') <:+ tokenize text := (parse_suffix _).1 _ _ _ hE
  have hmem : t ∈ tokenize text := hsuf.subset (List.mem_cons_self t r')
  have hkind : KindOk t := kindOk_of_mem_scan hmem
  have hEOF : (peek (t :: r')).1 ≠ "EOF" := by
    simp only [peek]
    rcases hkind with h | h | h | h | h | h | h | h <;> rw [h] <;> decide
  simp only [parse_expression, hE]
  rw [if_pos hEOF]

/-- Witness for C5: the parse of `"a b"` leaves the token
`("ID", "b")` unconsumed. -/
theorem claim_C5_witness :
    parse_expression "a b" = .error "Entrada extra." :=
  claim_C5.1 "a b" (.leaf "ID" "a") [("ID", "b")] rfl (by decide)

/-- A whitespace character matches none of the other character
classes of the token patterns. -/
lemma space_class (w : Char) (h : isSpaceChar w = true) :
    w.isDigit = false ∧ isIdentStart w = false ∧ isIdentChar w = false ∧
    isOpChar w = false ∧ (w == '.') = false := by
  simp only [isSpaceChar, Bool.or_eq_true, beq_iff_eq] at h
  rcases h with ⟨⟨⟨⟨rfl | rfl⟩ | rfl⟩ | rfl⟩ | rfl⟩ | rfl <;>
    exact ⟨rfl, rfl, rfl, rfl, rfl⟩

/-- A whitespace character ends whatever token is being scanned and
returns the scan to the `top` state. -/
lemma scanM_space_cons (w : Char) (hw : isSpaceChar w = true)
    (st : ScanState) (cs : List Char) :
    scanM st (w :: cs) = scanM st [] ++ scanM .top cs := by
  obtain ⟨h1, h2, h3, h4, h5⟩ := space_class w hw
  have h5n : w ≠ '.' := by simpa using h5
  cases st <;> simp [scanM, hw, h1, h2, h3, h4, h5n]

/-- A whitespace character splits the scan: the tokens of the input are
the tokens before it followed by the tokens after it. -/
lemma scanM_space_split (w : Char) (hw : isSpaceChar w = true) (B : List Char) :
    ∀ (st : ScanState) (A : List Char),
      scanM st (A ++ w :: B) = scanM st A ++ scanM .top B := by
  obtain ⟨h1, h2, h3, h4, h5⟩ := space_class w hw
  have h5n : w ≠ '.' := by simpa using h5
  intro st A
  induction st, A using scanM.induct <;>
    simp [scanM, hw, h1, h2, h3, h4, h5n, *]

/-- Leading whitespace is skipped. -/
lemma scanM_skip_spaces :
    ∀ (ws B : List Char), (∀ c ∈ ws, isSpaceChar c = true) →
      scanM .top (ws ++ B) = scanM .top B := by
  intro ws
  induction ws with
  | nil => intro B _; rfl
  | cons w ws' ih =>
    intro B h
    have hw : isSpaceChar w = true := h w (List.mem_cons_self w ws')
    have hstep : scanM .top ((w :: ws') ++ B) = scanM .top (ws' ++ B) := by
      simp [scanM, hw]
    rw [hstep]
    exact ih B fun c hc => h c (List.mem_cons_of_mem w hc)

/-- C9: parsing is insensitive to whitespace between lexemes: any
nonempty run of whitespace between two parts of the input separates
their token lists without otherwise changing them, and `"a+b"` and
`"  a   +   b  "` parse to the same tree. -/
theorem claim_C9 :
    (∀ (A ws B : List Char), ws ≠ [] → (∀ c ∈ ws, isSpaceChar c = true) →
      scan (A ++ ws ++ B) = scan A ++ scan B) ∧
    parse_expression "a+b" = parse_expression "  a   +   b  " ∧
    parse_expression "a+b" = .ok (.binop "+" (.leaf "ID" "a") (.leaf "ID" "b")) := by
  refine ⟨?_, rfl, rfl⟩
  intro A ws B hne hws
  obtain ⟨w, ws', rfl⟩ : ∃ w ws', ws = w :: ws' := by
    cases ws with
    | nil => exact absurd rfl hne
    | cons a b => exact ⟨a, b, rfl⟩
  have hw : isSpaceChar w = true := hws w (List.mem_cons_self w ws')
  have h1 : scan (A ++ (w :: ws') ++ B) = scanM .top (A ++ w :: (ws' ++ B)) := by
    simp [scan]
  rw [h1, scanM_space_split w hw (ws' ++ B) .top A,
    scanM_skip_spaces ws' B fun c hc => hws c (List.mem_cons_of_mem w hc)]
  rfl

/-- Witness for C9: a single space between `a` and `b`. -/
theorem claim_C9_witness :
    scan (['a'] ++ [' '] ++ ['b']) = scan ['a'] ++ scan ['b'] :=
  claim_C9.1 ['a'] [' '] ['b'] (by decide) (by decide)

lemma not_junk_of_identChar {c : Char} (h : isIdentChar c = true) :
    isJunkChar c = false := by
  simp [isJunkChar, h]

lemma not_junk_of_digit {c : Char} (h : c.isDigit = true) : isJunkChar c = false :=
  not_junk_of_identChar (by simp [isIdentChar, h])

lemma not_junk_of_identStart {c : Char} (h : isIdentStart c = true) :
    isJunkChar c = false := by
  simp only [isIdentStart, Bool.or_eq_true] at h
  apply not_junk_of_identChar
  rcases h with h | h <;> simp [isIdentChar, h]

lemma not_junk_of_space {c : Char} (h : isSpaceChar c = true) : isJunkChar c = false := by
  simp [isJunkChar, h]

lemma not_junk_of_op {c : Char} (h : isOpChar c = true) : isJunkChar c = false := by
  simp [isJunkChar, h]

lemma not_junk_of_dot {c : Char} (h : (c == '.') = true) : isJunkChar c = false := by
  simp [isJunkChar, h]

lemma blankJunk_junk {c : Char} (h : isJunkChar c = true) : blankJunk c = ' ' := by
  simp [blankJunk, h]

lemma blankJunk_id {c : Char} (h : isJunkChar c = false) : blankJunk c = c := by
  simp [blankJunk, h]

@[simp] lemma isSpaceChar_blank : isSpaceChar ' ' = true := rfl

@[simp] lemma isDigit_blank : Char.isDigit ' ' = false := rfl

@[simp] lemma isIdentStart_blank : isIdentStart ' ' = false := rfl

@[simp] lemma isIdentChar_blank : isIdentChar ' ' = false := rfl

@[simp] lemma isOpChar_blank : isOpChar ' ' = false := rfl

@[simp] lemma blank_ne_dot : (' ' == '.') = false := rfl

@[simp] lemma blankJunk_dot : blankJunk '.' = '.' := rfl

@[simp] lemma isDigit_dot : Char.isDigit '.' = false := rfl

@[simp] lemma isSpaceChar_dot : isSpaceChar '.' = false := rfl

@[simp] lemma isIdentStart_dot : isIdentStart '.' = false := rfl

@[simp] lemma isOpChar_dot : isOpChar '.' = false := rfl

/-- Replacing every junk character by a space does not change the
token list, from any scanner state. -/
lemma scanM_map_blank (st : ScanState) (cs : List Char) :
    scanM st (cs.map blankJunk) = scanM st cs := by
  induction st, cs using scanM.induct
  next => rfl
  next acc => rfl
  next acc => rfl
  next acc => rfl
  next acc => rfl
  next c cs h ih =>
    simp [scanM, blankJunk_id (not_junk_of_space h), *]
  next c cs h1 h2 ih =>
    simp [scanM, blankJunk_id (not_junk_of_digit h2), *]
  next c cs h1 h2 h3 ih =>
    simp [scanM, blankJunk_id (not_junk_of_identStart h3), *]
  next c cs h1 h2 h3 h4 ih =>
    simp [scanM, blankJunk_id (not_junk_of_op h4), *]
  next c cs h1 h2 h3 h4 ih =>
    cases hjc : isJunkChar c with
    | false => simp [scanM, blankJunk_id hjc, *]
    | true => simp [scanM, blankJunk_junk hjc, scanM_space_cons ' ' rfl, *]
  next acc c cs h ih =>
    simp [scanM, blankJunk_id (not_junk_of_digit h), *]
  next acc c cs h1 h2 ih =>
    have h2n : c = '.' := by simpa using h2
    simp [scanM, blankJunk_id (not_junk_of_dot h2), h2n, *]
  next acc c cs h1 h2 h3 ih =>
    have h2n : c ≠ '.' := by simpa using h2
    simp [scanM, blankJunk_id (not_junk_of_space h3), h2n, *]
  next acc c cs h1 h2 h3 h4 ih =>
    have h2n : c ≠ '.' := by simpa using h2
    simp [scanM, blankJunk_id (not_junk_of_identStart h4), h2n, *]
  next acc c cs h1 h2 h3 h4 h5 ih =>
    have h2n : c ≠ '.' := by simpa using h2
    simp [scanM, blankJunk_id (not_junk_of_op h5), h2n, *]
  next acc c cs h1 h2 h3 h4 h5 ih =>
    have h2n : c ≠ '.' := by simpa using h2
    cases hjc : isJunkChar c with
    | false => simp [scanM, blankJunk_id hjc, h2n, *]
    | true => simp [scanM, blankJunk_junk hjc, scanM_space_cons ' ' rfl, h2n, *]
  next acc c cs h ih =>
    simp [scanM, blankJunk_id (not_junk_of_digit h), *]
  next acc c cs h1 h2 ih =>
    simp [scanM, blankJunk_id (not_junk_of_space h2), *]
  next acc c cs h1 h2 h3 ih =>
    simp [scanM, blankJunk_id (not_junk_of_identStart h3), *]
  next acc c cs h1 h2 h3 h4 ih =>
    simp [scanM, blankJunk_id (not_junk_of_op h4), *]
  next acc c cs h1 h2 h3 h4 ih =>
    cases hjc : isJunkChar c with
    | false => simp [scanM, blankJunk_id hjc, *]
    | true => simp [scanM, blankJunk_junk hjc, scanM_space_cons ' ' rfl, *]
  next acc c cs h ih =>
    simp [scanM, blankJunk_id (not_junk_of_digit h), *]
  next acc c cs h1 h2 ih =>
    simp [scanM, blankJunk_id (not_junk_of_space h2), *]
  next acc c cs h1 h2 h3 ih =>
    simp [scanM, blankJunk_id (not_junk_of_identStart h3), *]
  next acc c cs h1 h2 h3 h4 ih =>
    simp [scanM, blankJunk_id (not_junk_of_op h4), *]
  next acc c cs h1 h2 h3 h4 ih =>
    cases hjc : isJunkChar c with
    | false => simp [scanM, blankJunk_id hjc, *]
    | true => simp [scanM, blankJunk_junk hjc, scanM_space_cons ' ' rfl, *]
  next acc c cs h ih =>
    simp [scanM, blankJunk_id (not_junk_of_identChar h), *]
  next acc c cs h1 h2 ih =>
    simp [scanM, blankJunk_id (not_junk_of_space h2), *]
  next acc c cs h1 h2 h3 ih =>
    simp [scanM, blankJunk_id (not_junk_of_op h3), *]
  next acc c cs h1 h2 h3 ih =>
    cases hjc : isJunkChar c with
    | false => simp [scanM, blankJunk_id hjc, *]
    | true => simp [scanM, blankJunk_junk hjc, scanM_space_cons ' ' rfl, *]

/-- C7 counterexample: the claim says `parse_expression` behaves on any
input exactly as on the input with every unrecognized character
*erased*.  Erasing `@` from `"a@b"` glues `a` and `b` into the single
identifier `ab`, but the lexer keeps them as two tokens, so the two
parses differ (trailing-input error versus a one-leaf tree). -/
theorem claim_C7_counterexample :
    eraseUnrecognized "a@b" = "ab" ∧
    parse_expression "a@b" = .error "Entrada extra." ∧
    parse_expression (eraseUnrecognized "a@b") = .ok (.leaf "ID" "ab") ∧
    parse_expression "a@b" ≠ parse_expression (eraseUnrecognized "a@b") := by
  exact ⟨rfl, rfl, rfl, by decide⟩

/-- C7 (amended): the parser-path lexer silently discards every ASCII
character that is not a letter, digit, underscore, whitespace, dot, or
one of `+ - * / ( )`, and each discarded character acts as a token
separator: on any input of ASCII characters, `parse_expression`
behaves exactly as on that input with every such character replaced by
a *space* (not erased).  In particular `parse_expression "@x"`
succeeds with `Leaf(ID "x")` and `parse_expression "a @ b"` raises the
trailing-input error.  The universal parts are restricted to ASCII
because the source regex `\\d`, compiled without `re.ASCII`, also
matches non-ASCII Unicode decimal digits, which the source keeps
inside `NUMBER` tokens rather than discarding. -/
theorem claim_C7 :
    (∀ cs : List Char, (∀ c ∈ cs, c.toNat < 128) →
      scan (cs.map blankJunk) = scan cs) ∧
    (∀ text : String, (∀ c ∈ text.data, c.toNat < 128) →
      parse_expression (String.mk (text.data.map blankJunk)) = parse_expression text) ∧
    parse_expression "@x" = .ok (.leaf "ID" "x") ∧
    parse_expression "a @ b" = .error "Entrada extra." := by
  refine ⟨fun cs _ => scanM_map_blank .top cs, ?_, rfl, rfl⟩
  intro text _
  have h : tokenize (String.mk (text.data.map blankJunk)) = tokenize text :=
    scanM_map_blank .top text.data
  unfold parse_expression
  rw [h]

/-- Witness for C7: blanking the junk character of `"a@b"` gives
`"a b"`, which parses identically (both fail with trailing input). -/
theorem claim_C7_witness :
    String.mk ("a@b".data.map blankJunk) = "a b" ∧
    parse_expression (String.mk ("a@b".data.map blankJunk)) = parse_expression "a@b" :=
  ⟨rfl, claim_C7.2.1 "a@b" (by decide)⟩

end Compilador
